import Mathlib

/-!
Verification development for the MagicCube interactive Rubik's-cube repository.

The repository snapshot contains the controller file
`src/code/cube_convnet_solver.py`.  That file imports a geometric cube model
(`cube.py`, class `Cube`) that is not part of the snapshot; following the
specification, the cube model is embedded here from the spec's words
(definitions marked "Modelled from the spec").  Everything else is translated
from the controller source.  The external collaborators (the pycuber move
algebra and the trained keras predictor) are kept opaque: they appear as
function parameters of the definitions that call them.
-/

namespace MagicCube

/-- Modelled from the spec: the six faces of the cube (cube.py, which names
faces by the letters L, R, U, D, F, B, is not under src/). -/
inductive Face
  | L
  | R
  | U
  | D
  | F
  | B
deriving DecidableEq, Repr

/-- Modelled from the spec: an integer sticker-centroid position.  The spec
describes stickers with a face/position identity moved by 90-degree layer
rotations that are "invertible integer operations"; positions live on the
surface of the cube scaled to integer coordinates. -/
structure Pos where
  x : Int
  y : Int
  z : Int
deriving DecidableEq, Repr

/-- Modelled from the spec: a sticker has a position and a mutable color
index into a fixed 6-entry palette. -/
structure Sticker where
  pos : Pos
  color : Fin 6
deriving DecidableEq, Repr

/-- Modelled from the spec: one clockwise quarter turn of a position around
the rotation axis of the given face. -/
def rotQ : Face → Pos → Pos
  | Face.R, p => ⟨p.x, -p.z, p.y⟩
  | Face.L, p => ⟨p.x, p.z, -p.y⟩
  | Face.U, p => ⟨p.z, p.y, -p.x⟩
  | Face.D, p => ⟨-p.z, p.y, p.x⟩
  | Face.F, p => ⟨-p.y, p.x, p.z⟩
  | Face.B, p => ⟨p.y, -p.x, p.z⟩

/-- Modelled from the spec: the signed coordinate of a position along the
outward axis of a face; it measures the depth of the layer the position
belongs to, seen from that face. -/
def axisCoord : Face → Pos → Int
  | Face.R, p => p.x
  | Face.L, p => -p.x
  | Face.U, p => p.y
  | Face.D, p => -p.y
  | Face.F, p => p.z
  | Face.B, p => -p.z

/-- Modelled from the spec: rotation of a position by a signed number of
quarter turns around a face's axis (90 degrees times `t`, taken mod 4). -/
def rot (f : Face) (t : Int) (p : Pos) : Pos :=
  (rotQ f)^[(t % 4).toNat] p

/-- Modelled from the spec: membership of a position in layer `l` of a face
for an N-cube.  Layer 0 is the named face itself together with the outermost
ring of side stickers; layer `N-1` reaches the opposite face.  Membership
depends only on the depth `axisCoord` along the face's axis. -/
def inLayer (N : Nat) (f : Face) (l : Nat) (p : Pos) : Bool :=
  (axisCoord f p == (N : Int) - 1 - 2 * (l : Int)) ||
  (l == 0 && axisCoord f p == (N : Int)) ||
  (l == N - 1 && axisCoord f p == -(N : Int))

/-- Modelled from the spec: the effect of a move `(f, t, l)` on a single
sticker: stickers in the addressed layer rotate with it, carrying their
color; all other stickers are untouched. -/
def moveSticker (N : Nat) (f : Face) (t : Int) (l : Nat) (s : Sticker) : Sticker :=
  if inLayer N f l s.pos then { s with pos := rot f t s.pos } else s

/-- Modelled from the spec: the effect of a move on the whole sticker/color
mapping. -/
def applyMoveStickers (N : Nat) (f : Face) (t : Int) (l : Nat)
    (ss : List Sticker) : List Sticker :=
  ss.map (moveSticker N f t l)

/-- Modelled from the spec: the solved-state color of each face (a fixed
bijection between faces and palette indices). -/
def Face.colorIdx : Face → Fin 6
  | Face.L => 0
  | Face.U => 1
  | Face.R => 2
  | Face.D => 3
  | Face.F => 4
  | Face.B => 5

/-- Modelled from the spec: the solved-state position of the sticker at grid
cell `(i, j)` of a face, for an N-cube scaled to integer coordinates: the
face coordinate is `±N` and the two in-face coordinates are the odd numbers
`2*i + 1 - N` and `2*j + 1 - N`. -/
def solvedPos (N : Nat) (f : Face) (i j : Nat) : Pos :=
  let u : Int := 2 * (i : Int) + 1 - (N : Int)
  let v : Int := 2 * (j : Int) + 1 - (N : Int)
  match f with
  | Face.R => ⟨(N : Int), u, v⟩
  | Face.L => ⟨-(N : Int), u, v⟩
  | Face.U => ⟨u, (N : Int), v⟩
  | Face.D => ⟨u, -(N : Int), v⟩
  | Face.F => ⟨u, v, (N : Int)⟩
  | Face.B => ⟨u, v, -(N : Int)⟩

/-- The six faces in a fixed enumeration order. -/
def allFaces : List Face :=
  [Face.L, Face.U, Face.R, Face.D, Face.F, Face.B]

/-- Modelled from the spec: the solved cube's stickers — every face shows its
own uniform color, one sticker per grid cell. -/
def solvedStickers (N : Nat) : List Sticker :=
  allFaces.flatMap (fun f =>
    (List.range N).flatMap (fun i =>
      (List.range N).map (fun j => ⟨solvedPos N f i j, f.colorIdx⟩)))

/-- Modelled from the spec: the cube model's state — its size, the current
sticker/color mapping, and the move history (the `_move_list` the controller
reads and clears). -/
structure Cube where
  N : Nat
  stickers : List Sticker
  move_list : List (Face × Int × Nat)
deriving DecidableEq, Repr

/-- Modelled from the spec: `Cube.rotate_face` (cube.py is not under src/)
rotates the addressed layer by `t` quarter turns, moving colors with their
stickers, and appends the move to the history. -/
def Cube.rotate_face (c : Cube) (f : Face) (t : Int) (l : Nat) : Cube :=
  { c with
    stickers := applyMoveStickers c.N f t l c.stickers,
    move_list := c.move_list ++ [(f, t, l)] }

/-- The solved cube of size N with an empty history. -/
def solvedCube (N : Nat) : Cube :=
  ⟨N, solvedStickers N, []⟩

/-- State of the controller (class `InteractiveCube` of
src/code/cube_convnet_solver.py): the geometric cube, the parallel pycuber
representation (the external move algebra is kept opaque, so it is recorded
as the list of tokens applied since the last solved reset), and the
`_moveList` label list. -/
structure InteractiveCube where
  cube : Cube
  pycuber_rep : List String
  moveList : List String
deriving DecidableEq, Repr

/-- `InteractiveCube.rotate_face` (src/code/cube_convnet_solver.py lines
197-202): unless the requested turn count is (numerically) zero, rotate the
cube.  The `steps` parameter of the source only splits the same net rotation
into equal fractions for animation frames; the net effect on the cube is the
single rotation by `turns`, embedded here directly. -/
def InteractiveCube.rotate_face (ic : InteractiveCube) (f : Face) (t : Int)
    (l : Nat) : InteractiveCube :=
  if t = 0 then ic else { ic with cube := ic.cube.rotate_face f t l }

/-- `InteractiveCube._reset_cube` (src/code/cube_convnet_solver.py lines
210-218): snapshot the history, replay it in reverse with inverted turn
signs through `rotate_face`, clear the history, and reset the pycuber
representation to a fresh solved cube. -/
def InteractiveCube.reset_cube (ic : InteractiveCube) : InteractiveCube :=
  let ml := ic.cube.move_list
  let ic2 := ml.reverse.foldl
    (fun s m => s.rotate_face m.1 (-(m.2.1)) m.2.2) ic
  { ic2 with cube := { ic2.cube with move_list := [] }, pycuber_rep := [] }

/-- The solved controller state of size N. -/
def solvedICube (N : Nat) : InteractiveCube :=
  ⟨solvedCube N, [], []⟩

/-- A sequence of moves applied through the controller's `rotate_face`. -/
def applyIC (ms : List (Face × Int × Nat)) (ic : InteractiveCube) :
    InteractiveCube :=
  ms.foldl (fun s m => s.rotate_face m.1 m.2.1 m.2.2) ic

/-- Replaying a recorded move history forward over a sticker mapping (the
cube's state is always the replay of its history from the state the history
started at). -/
def replayStickers (N : Nat) (ml : List (Face × Int × Nat))
    (ss : List Sticker) : List Sticker :=
  ml.foldl (fun st m => applyMoveStickers N m.1 m.2.1 m.2.2 st) ss

/-- The sticker-level effect of the reset loop of
`InteractiveCube._reset_cube`: each recorded move is replayed through the
controller's guarded `rotate_face` with its turn sign inverted. -/
def undoStickers (N : Nat) (ml : List (Face × Int × Nat))
    (ss : List Sticker) : List Sticker :=
  ml.foldl
    (fun st m =>
      if -(m.2.1) = 0 then st
      else applyMoveStickers N m.1 (-(m.2.1)) m.2.2 st) ss

/-- The apostrophe character, written by code point to keep the file free of
quote-in-quote literals. -/
def aposChar : Char := Char.ofNat 39

/-- Append an apostrophe to a face letter, forming the inverse-turn token. -/
def inv (s : String) : String := s.push aposChar

/-- `possible_moves` (src/code/cube_convnet_solver.py line 462): the fixed
18-token vocabulary, in source order. -/
def possible_moves : List String :=
  ["R", inv ("R"), "R2", "U", inv ("U"), "U2", "F", inv ("F"), "F2",
   "D", inv ("D"), "D2", "B", inv ("B"), "B2", "L", inv ("L"), "L2"]

/-- `faces` (src/code/cube_convnet_solver.py line 463): the fixed face order
used to serialize the pycuber cube. -/
def faces : List Char := ['L', 'U', 'R', 'D', 'F', 'B']

/-- `colors` (src/code/cube_convnet_solver.py line 464): the fixed 6-entry
palette of pycuber sticker strings. -/
def colors : List String :=
  ["[r]", "[y]", "[o]", "[w]", "[g]", "[b]"]

/-- `max_moves` (src/code/cube_convnet_solver.py line 466). -/
def max_moves : Nat := 6

/-- Face letter lookup used by the token dispatch; letters other than the
six face letters name no face. -/
def Face.ofChar? (c : Char) : Option Face :=
  if c = 'L' then some Face.L
  else if c = 'R' then some Face.R
  else if c = 'U' then some Face.U
  else if c = 'D' then some Face.D
  else if c = 'F' then some Face.F
  else if c = 'B' then some Face.B
  else none

/-- Guarded rotation at the cube level: the body of
`InteractiveCube.rotate_face` acting on the `cube` field alone. -/
def rotateFaceG (c : Cube) (f : Face) (t : Int) (l : Nat) : Cube :=
  if t = 0 then c else c.rotate_face f t l

/-- The token dispatch shared by `_shuffle_cube` (lines 256-265) and
`_solve_cube_NN` (lines 293-302) of src/code/cube_convnet_solver.py: a
1-character token is one quarter turn of the named face; a token whose
second character is an apostrophe is one inverse quarter turn; a token whose
second character is "2" is two separate quarter turns; anything else falls
through with no effect (the source has no other branch). -/
def applyTokenCube (c : Cube) (j : String) : Cube :=
  match j.data with
  | [ch] =>
    match Face.ofChar? ch with
    | some f => rotateFaceG c f 1 0
    | none => c
  | ch :: q :: _ =>
    if q = aposChar then
      match Face.ofChar? ch with
      | some f => rotateFaceG c f (-1) 0
      | none => c
    else if q = '2' then
      match Face.ofChar? ch with
      | some f => rotateFaceG (rotateFaceG c f 1 0) f 1 0
      | none => c
    else c
  | [] => c

/-- `generate_game` (src/code/cube_convnet_solver.py lines 410-437): build a
scramble formula of exactly `mm` tokens, each drawn from `possible_moves` at
an index chosen by the random source (`randint(0, len(possible_moves)-1)`,
embedded as the oracle `rand`). -/
def generate_game (rand : Nat → Fin 18) (mm : Nat) : List String :=
  (List.range mm).map (fun j => possible_moves.get (Fin.cast (by decide) (rand j)))

/-- One iteration of the scramble loop of `_shuffle_cube`: the token is fed
to the pycuber representation and dispatched onto the geometric cube. -/
def shuffleStep (s : InteractiveCube) (j : String) : InteractiveCube :=
  { s with cube := applyTokenCube s.cube j,
           pycuber_rep := s.pycuber_rep ++ [j] }

/-- `InteractiveCube._shuffle_cube` (src/code/cube_convnet_solver.py lines
240-265): reset the cube first, generate a `max_moves`-token scramble,
record it as the `_moveList` label, then apply each token to the pycuber
representation and to the geometric cube through the token dispatch. -/
def InteractiveCube.shuffle_cube (ic : InteractiveCube) (rand : Nat → Fin 18) :
    InteractiveCube :=
  let ic1 := ic.reset_cube
  let formula := generate_game rand max_moves
  let ic2 := { ic1 with moveList := formula }
  formula.foldl shuffleStep ic2

/-- The face character at tensor slot `i`, per the fixed `faces` order. -/
def faceAt (i : Fin 6) : Char := faces.get (Fin.cast (by decide) i)

/-- `cube2np` (src/code/cube_convnet_solver.py lines 439-451): serialize the
pycuber cube (kept opaque: `get_face` returns the sticker string of face
`f` at row `j`, column `k`) into the 6-by-3-by-3 tensor of palette indices,
entry `(i, j, k)` being `colors.index` of the sticker string of the `i`-th
face in the fixed `faces` order. -/
def cube2np (get_face : Char → Fin 3 → Fin 3 → String) (i : Fin 6)
    (j k : Fin 3) : Nat :=
  colors.indexOf (get_face (faceAt i) j k)

/-- `np.argmax` over the 18 predictor scores: the first index attaining the
maximum (the fold replaces the champion only on a strictly greater score). -/
def argmaxIdx (scores : Fin 18 → Int) : Fin 18 :=
  (List.finRange 18).foldl (fun b i => if scores b < scores i then i else b)
    ⟨0, by decide⟩

/-- `InteractiveCube._convertPycubeToMove` (src/code/cube_convnet_solver.py
lines 304-308): serialize the cube with `cube2np`, feed the tensor to the
opaque predictor (the source's reshape to (1,18,3,1) is a pure layout
change of the same 54 entries and is absorbed into the opaque `predict`),
and return the vocabulary token at the argmax of the 18 scores. -/
def convertPycubeToMove
    (predict : (Fin 6 → Fin 3 → Fin 3 → Nat) → Fin 18 → Int)
    (get_face : Char → Fin 3 → Fin 3 → String) : String :=
  possible_moves.get (Fin.cast (by decide) (argmaxIdx (predict (cube2np get_face))))

/-- The move-accumulation loop of `InteractiveCube._solve_cube_NN`
(src/code/cube_convnet_solver.py lines 274-283), with the remaining
iteration budget explicit: each round asks the predictor for a move,
appends it, applies it to the (opaque) pycuber state, and stops as soon as
the state equals the solved state. -/
def solve_cube_NN_loop {α : Type} [DecidableEq α] (pm : α → String)
    (ap : α → String → α) (solvedC : α) : Nat → α → List String
  | 0, _ => []
  | fuel + 1, c =>
    let m := pm c
    let c2 := ap c m
    if c2 = solvedC then [m] else m :: solve_cube_NN_loop pm ap solvedC fuel c2

/-- The `for j in range(10)` loop of `_solve_cube_NN`: the accumulated move
list for a 10-round budget. -/
def solve_cube_NN_moves {α : Type} [DecidableEq α] (pm : α → String)
    (ap : α → String → α) (solvedC : α) (c0 : α) : List String :=
  solve_cube_NN_loop pm ap solvedC 10 c0

/-- Python's `str.upper()` on a token, evaluated character by character
(spelled as an explicit map so the kernel can evaluate it). -/
def upperStr (s : String) : String := String.mk (s.data.map Char.toUpper)

/-- `sanitizedMove` of `InteractiveCube._key_press`
(src/code/cube_convnet_solver.py line 341), embedded with Python's
conditional-expression precedence: the expression parses as
`(key.upper() + "") if direction == 1 else "'"`, so the whole rendered
token is a bare apostrophe when the direction is -1. -/
def sanitizedMove (key : String) (direction : Int) : String :=
  if direction = 1 then upperStr key ++ "" else String.mk [aposChar]

/-- Modelled from the spec: the canonical rendering of a (face, signed
turns) pair claimed by the spec's notation adapter — the face letter, the
face letter followed by an apostrophe, or the face letter followed by "2". -/
def renderTokenSpec (key : String) (direction : Int) : String :=
  if direction = 1 then upperStr key
  else if direction = -1 then inv (upperStr key)
  else upperStr key ++ "2"

/-- Modelled from the spec: the error taxonomy of the cube model and the
notation adapter (spec section 7).  The spec names the third error
InvalidNotation; it is spelled with a trailing Err here. -/
inductive CubeError
  | InvalidFace
  | OutOfRange
  | InvalidNotationErr
deriving DecidableEq, Repr

/-- Modelled from the spec: the cube model's move entry point with its
failure modes — an invalid face identifier is rejected with the InvalidFace
error and a layer index outside `[0, N)` with the OutOfRange error; only a
valid request rotates the cube. -/
def Cube.rotate_face_checked (c : Cube) (ch : Char) (t : Int) (l : Nat) :
    Except CubeError Cube :=
  match Face.ofChar? ch with
  | none => Except.error CubeError.InvalidFace
  | some f =>
    if l < c.N then Except.ok (c.rotate_face f t l)
    else Except.error CubeError.OutOfRange

/-- Does this character name a face? -/
def isFaceChar (c : Char) : Bool := (Face.ofChar? c).isSome

/-- Modelled from the spec: the notation adapter's parse — one of the 18
canonical tokens becomes a (face letter, signed turns) pair and every other
string is rejected with the InvalidNotation error. -/
def parse_token (j : String) : Except CubeError (Char × Int) :=
  match j.data with
  | [ch] =>
    if isFaceChar ch then Except.ok (ch, 1)
    else Except.error CubeError.InvalidNotationErr
  | [ch, q] =>
    if isFaceChar ch ∧ q = aposChar then Except.ok (ch, -1)
    else if isFaceChar ch ∧ q = '2' then Except.ok (ch, 2)
    else Except.error CubeError.InvalidNotationErr
  | _ => Except.error CubeError.InvalidNotationErr

/-! ## Rotation algebra -/

theorem axisCoord_rotQ (f : Face) (p : Pos) :
    axisCoord f (rotQ f p) = axisCoord f p := by
  cases f <;> rfl

theorem rotQ_four (f : Face) (p : Pos) :
    rotQ f (rotQ f (rotQ f (rotQ f p))) = p := by
  cases f <;> cases p <;> simp [rotQ]

theorem rotQ_iterate_four (f : Face) (p : Pos) : (rotQ f)^[4] p = p := by
  show rotQ f (rotQ f (rotQ f (rotQ f p))) = p
  exact rotQ_four f p

theorem axisCoord_iterate (f : Face) (n : Nat) (p : Pos) :
    axisCoord f ((rotQ f)^[n] p) = axisCoord f p := by
  induction n generalizing p with
  | zero => rfl
  | succ n ih =>
    rw [Function.iterate_succ_apply, ih, axisCoord_rotQ]

theorem rotQ_iterate_add4 (f : Face) (n : Nat) (p : Pos) :
    (rotQ f)^[n + 4] p = (rotQ f)^[n] p := by
  rw [Function.iterate_add_apply, rotQ_iterate_four]

theorem rotQ_iterate_mod (f : Face) (n : Nat) (p : Pos) :
    (rotQ f)^[n] p = (rotQ f)^[n % 4] p := by
  have key : ∀ k r q, (rotQ f)^[4 * k + r] q = (rotQ f)^[r] q := by
    intro k
    induction k with
    | zero => intro r q; simp
    | succ k ih =>
      intro r q
      have h : 4 * (k + 1) + r = (4 * k + r) + 4 := by ring
      rw [h, rotQ_iterate_add4, ih]
  conv_lhs => rw [← Nat.div_add_mod n 4]
  exact key (n / 4) (n % 4) p

theorem axisCoord_rot (f : Face) (t : Int) (p : Pos) :
    axisCoord f (rot f t p) = axisCoord f p :=
  axisCoord_iterate f _ p

theorem inLayer_rot (N : Nat) (f : Face) (l : Nat) (t : Int) (p : Pos) :
    inLayer N f l (rot f t p) = inLayer N f l p := by
  simp [inLayer, axisCoord_rot]

theorem rot_neg_rot (f : Face) (t : Int) (p : Pos) :
    rot f (-t) (rot f t p) = p := by
  unfold rot
  rw [← Function.iterate_add_apply, rotQ_iterate_mod]
  have h : ((-t % 4).toNat + (t % 4).toNat) % 4 = 0 := by omega
  rw [h]
  rfl

theorem moveSticker_cancel (N : Nat) (f : Face) (t : Int) (l : Nat)
    (s : Sticker) :
    moveSticker N f (-t) l (moveSticker N f t l s) = s := by
  cases hh : inLayer N f l s.pos with
  | true => simp [moveSticker, hh, inLayer_rot, rot_neg_rot]
  | false => simp [moveSticker, hh]

theorem applyMoveStickers_cancel (N : Nat) (f : Face) (t : Int) (l : Nat)
    (ss : List Sticker) :
    applyMoveStickers N f (-t) l (applyMoveStickers N f t l ss) = ss := by
  induction ss with
  | nil => rfl
  | cons a as ih =>
    simp only [applyMoveStickers, List.map_cons] at *
    rw [moveSticker_cancel, ih]

/-- C5: for every cube size N ≥ 2, every face, every layer index inside
[0, N) and every turn count t, applying the move (face, t, layer) and then
the move (face, -t, layer) restores the sticker/color mapping that held
before the first application, exactly. -/
theorem apply_move_then_inverse_restores (N : Nat) (f : Face) (t : Int)
    (l : Nat) (ss : List Sticker) (hN : 2 ≤ N) (hl : l < N) :
    applyMoveStickers N f (-t) l (applyMoveStickers N f t l ss) = ss :=
  applyMoveStickers_cancel N f t l ss

/-- Witness for C5: N = 3, face R, one quarter turn, layer 0, starting from
the solved sticker mapping. -/
theorem apply_move_then_inverse_restores_witness :
    applyMoveStickers 3 Face.R (-1) 0
      (applyMoveStickers 3 Face.R 1 0 (solvedStickers 3)) = solvedStickers 3 :=
  apply_move_then_inverse_restores 3 Face.R 1 0 (solvedStickers 3)
    (by decide) (by decide)

/-! ## Controller plumbing -/

theorem map_id_of {α : Type} (f : α → α) (h : ∀ a, f a = a) :
    ∀ l : List α, l.map f = l := by
  intro l
  induction l with
  | nil => rfl
  | cons a as ih => simp [h a, ih]

theorem ic_rotate_face_cube_N (ic : InteractiveCube) (f : Face) (t : Int)
    (l : Nat) : (ic.rotate_face f t l).cube.N = ic.cube.N := by
  unfold InteractiveCube.rotate_face
  split <;> rfl

theorem ic_rotate_face_stickers (ic : InteractiveCube) (f : Face) (t : Int)
    (l : Nat) :
    (ic.rotate_face f t l).cube.stickers =
      if t = 0 then ic.cube.stickers
      else applyMoveStickers ic.cube.N f t l ic.cube.stickers := by
  unfold InteractiveCube.rotate_face
  split <;> rfl

theorem ic_rotate_face_move_list (ic : InteractiveCube) (f : Face) (t : Int)
    (l : Nat) :
    (ic.rotate_face f t l).cube.move_list =
      if t = 0 then ic.cube.move_list
      else ic.cube.move_list ++ [(f, t, l)] := by
  unfold InteractiveCube.rotate_face
  split <;> rfl

theorem undoStickers_append (N : Nat) (a b : List (Face × Int × Nat))
    (ss : List Sticker) :
    undoStickers N (a ++ b) ss = undoStickers N b (undoStickers N a ss) :=
  List.foldl_append _ _ _ _

theorem replayStickers_append (N : Nat) (a b : List (Face × Int × Nat))
    (ss : List Sticker) :
    replayStickers N (a ++ b) ss = replayStickers N b (replayStickers N a ss) :=
  List.foldl_append _ _ _ _

theorem reset_fold_stickers (l : List (Face × Int × Nat))
    (ic : InteractiveCube) :
    (l.foldl (fun s m => s.rotate_face m.1 (-(m.2.1)) m.2.2) ic).cube.stickers
        = undoStickers ic.cube.N l ic.cube.stickers ∧
    (l.foldl (fun s m => s.rotate_face m.1 (-(m.2.1)) m.2.2) ic).cube.N
        = ic.cube.N := by
  induction l generalizing ic with
  | nil => exact ⟨rfl, rfl⟩
  | cons m ms ih =>
    obtain ⟨h1, h2⟩ := ih (ic.rotate_face m.1 (-(m.2.1)) m.2.2)
    have hs := ic_rotate_face_stickers ic m.1 (-(m.2.1)) m.2.2
    have hN := ic_rotate_face_cube_N ic m.1 (-(m.2.1)) m.2.2
    constructor
    · rw [List.foldl_cons, h1, hN, hs]
      rfl
    · rw [List.foldl_cons, h2, hN]

theorem reset_cube_stickers (ic : InteractiveCube) :
    ic.reset_cube.cube.stickers =
      undoStickers ic.cube.N ic.cube.move_list.reverse ic.cube.stickers :=
  (reset_fold_stickers ic.cube.move_list.reverse ic).1

theorem undo_replay_cancel (N : Nat) :
    ∀ (ml : List (Face × Int × Nat)) (ss : List Sticker),
      (∀ m ∈ ml, m.2.1 ≠ 0) →
      undoStickers N ml.reverse (replayStickers N ml ss) = ss := by
  intro ml
  induction ml with
  | nil => intro ss _; rfl
  | cons m ms ih =>
    intro ss h
    have hm : m.2.1 ≠ 0 := h m (List.mem_cons_self m ms)
    have hms : ∀ x ∈ ms, x.2.1 ≠ 0 := fun x hx => h x (List.mem_cons_of_mem m hx)
    rw [List.reverse_cons, undoStickers_append]
    have h1 : replayStickers N (m :: ms) ss =
        replayStickers N ms (applyMoveStickers N m.1 m.2.1 m.2.2 ss) := rfl
    rw [h1, ih _ hms]
    have hneg : ¬(-(m.2.1) = 0) := by
      intro hc
      exact hm (neg_eq_zero.mp hc)
    show (if -(m.2.1) = 0 then applyMoveStickers N m.1 m.2.1 m.2.2 ss
      else applyMoveStickers N m.1 (-(m.2.1)) m.2.2
        (applyMoveStickers N m.1 m.2.1 m.2.2 ss)) = ss
    rw [if_neg hneg]
    exact applyMoveStickers_cancel N m.1 m.2.1 m.2.2 ss

theorem applyIC_inv (N : Nat) (ms : List (Face × Int × Nat)) :
    ∀ ic : InteractiveCube, ic.cube.N = N →
      (∀ m ∈ ic.cube.move_list, m.2.1 ≠ 0) →
      ic.cube.stickers = replayStickers N ic.cube.move_list (solvedStickers N) →
      (applyIC ms ic).cube.N = N ∧
      (∀ m ∈ (applyIC ms ic).cube.move_list, m.2.1 ≠ 0) ∧
      (applyIC ms ic).cube.stickers =
        replayStickers N (applyIC ms ic).cube.move_list (solvedStickers N) := by
  induction ms with
  | nil => intro ic hN hnz hst; exact ⟨hN, hnz, hst⟩
  | cons m rest ih =>
    intro ic hN hnz hst
    have step : applyIC (m :: rest) ic =
        applyIC rest (ic.rotate_face m.1 m.2.1 m.2.2) := rfl
    rw [step]
    apply ih
    · rw [ic_rotate_face_cube_N]; exact hN
    · rw [ic_rotate_face_move_list]
      split
      · exact hnz
      · intro x hx
        rcases List.mem_append.mp hx with hx | hx
        · exact hnz x hx
        · rcases List.mem_singleton.mp hx with rfl
          simpa using (by assumption : ¬m.2.1 = 0)
    · rw [ic_rotate_face_stickers, ic_rotate_face_move_list]
      split
      · exact hst
      · rw [hN, hst, replayStickers_append]
        rfl

theorem reset_cube_N (ic : InteractiveCube) :
    ic.reset_cube.cube.N = ic.cube.N :=
  (reset_fold_stickers ic.cube.move_list.reverse ic).2

theorem reset_applyIC_cube (N : Nat) (ms : List (Face × Int × Nat)) :
    ((applyIC ms (solvedICube N)).reset_cube).cube = solvedCube N ∧
    ((applyIC ms (solvedICube N)).reset_cube).pycuber_rep = [] := by
  obtain ⟨hN, hnz, hst⟩ := applyIC_inv N ms (solvedICube N) rfl
    (by intro m hm; exact absurd hm (List.not_mem_nil m)) rfl
  refine ⟨?_, rfl⟩
  have hstick : ((applyIC ms (solvedICube N)).reset_cube).cube.stickers
      = solvedStickers N := by
    rw [reset_cube_stickers, hN, hst]
    exact undo_replay_cancel N _ (solvedStickers N) hnz
  have hNr : ((applyIC ms (solvedICube N)).reset_cube).cube.N = N := by
    rw [reset_cube_N]; exact hN
  have heta : ((applyIC ms (solvedICube N)).reset_cube).cube =
      ⟨((applyIC ms (solvedICube N)).reset_cube).cube.N,
       ((applyIC ms (solvedICube N)).reset_cube).cube.stickers,
       ((applyIC ms (solvedICube N)).reset_cube).cube.move_list⟩ := rfl
  rw [heta, hNr, hstick]
  rfl

/-- C1: for every sequence of moves applied through the controller starting
from the solved cube, `_reset_cube` replays the recorded history in reverse
with inverted turn signs and then clears it, restoring the sticker/color
mapping exactly to the solved state (and resetting the parallel pycuber
representation to a fresh solved cube). -/
theorem undo_all_restores_solved (N : Nat) (ms : List (Face × Int × Nat)) :
    ((applyIC ms (solvedICube N)).reset_cube).cube.stickers = solvedStickers N ∧
    ((applyIC ms (solvedICube N)).reset_cube).cube.move_list = [] ∧
    ((applyIC ms (solvedICube N)).reset_cube).pycuber_rep = [] := by
  obtain ⟨hc, hp⟩ := reset_applyIC_cube N ms
  exact ⟨by rw [hc]; rfl, by rw [hc]; rfl, hp⟩

/-- C2: the half-turn token "R2" drives the cube to the same final state as
the quarter-turn token "R" applied twice, and it is recorded as two separate
quarter-turn history entries (two apply calls against the cube model), not
one half-turn entry. -/
theorem token_R2_is_two_quarter_turns (c : Cube) :
    applyTokenCube c ("R2") = applyTokenCube (applyTokenCube c ("R")) ("R") ∧
    (applyTokenCube c ("R2")).move_list =
      c.move_list ++ [(Face.R, 1, 0), (Face.R, 1, 0)] := by
  constructor
  · rfl
  · show ((c.rotate_face Face.R 1 0).rotate_face Face.R 1 0).move_list = _
    simp [Cube.rotate_face]

/-- C7: a rotation request whose turn count is congruent to 0 mod 4 leaves
the cube geometry (the sticker/color mapping) unchanged, and a 0-turn
request is a complete no-op: in particular it records no history entry. -/
theorem rotate_face_mod_four_noop (ic : InteractiveCube) (f : Face) (t : Int)
    (l : Nat) :
    (t % 4 = 0 → (ic.rotate_face f t l).cube.stickers = ic.cube.stickers) ∧
    ic.rotate_face f 0 l = ic := by
  constructor
  · intro h4
    rw [ic_rotate_face_stickers]
    split
    · rfl
    · have hid : ∀ s : Sticker, moveSticker ic.cube.N f t l s = s := by
        intro s
        have hz : (t % 4).toNat = 0 := by rw [h4]; rfl
        unfold moveSticker rot
        rw [hz]
        cases inLayer ic.cube.N f l s.pos <;> simp
      exact map_id_of _ hid ic.cube.stickers
  · unfold InteractiveCube.rotate_face
    rw [if_pos rfl]

/-- Witness for C7: a 4-turn request on the solved 2-cube leaves the sticker
mapping unchanged. -/
theorem rotate_face_mod_four_noop_witness :
    ((solvedICube 2).rotate_face Face.R 4 0).cube.stickers =
      (solvedICube 2).cube.stickers :=
  (rotate_face_mod_four_noop (solvedICube 2) Face.R 4 0).1 (by decide)

/-! ## The solve loop -/

theorem solve_loop_succ {α : Type} [DecidableEq α] (pm : α → String)
    (ap : α → String → α) (solvedC : α) (n : Nat) (c : α) :
    solve_cube_NN_loop pm ap solvedC (n + 1) c =
      if ap c (pm c) = solvedC then [pm c]
      else pm c :: solve_cube_NN_loop pm ap solvedC n (ap c (pm c)) := rfl

theorem solve_loop_length_le {α : Type} [DecidableEq α] (pm : α → String)
    (ap : α → String → α) (solvedC : α) :
    ∀ (fuel : Nat) (c : α),
      (solve_cube_NN_loop pm ap solvedC fuel c).length ≤ fuel := by
  intro fuel
  induction fuel with
  | zero => intro c; exact Nat.le_refl 0
  | succ n ih =>
    intro c
    rw [solve_loop_succ]
    split
    · simp
    · simpa using Nat.succ_le_succ (ih (ap c (pm c)))

theorem solve_loop_early_stop {α : Type} [DecidableEq α] (pm : α → String)
    (ap : α → String → α) (solvedC : α) :
    ∀ (fuel : Nat) (c : α) (k : Nat),
      k + 1 < (solve_cube_NN_loop pm ap solvedC fuel c).length →
      List.foldl ap c ((solve_cube_NN_loop pm ap solvedC fuel c).take (k + 1))
        ≠ solvedC := by
  intro fuel
  induction fuel with
  | zero =>
    intro c k h
    simp [solve_cube_NN_loop] at h
  | succ n ih =>
    intro c k h
    rw [solve_loop_succ] at h ⊢
    by_cases hs : ap c (pm c) = solvedC
    · rw [if_pos hs] at h
      simp at h
    · rw [if_neg hs] at h ⊢
      cases k with
      | zero => simpa using hs
      | succ k =>
        have h2 : k + 1 <
            (solve_cube_NN_loop pm ap solvedC n (ap c (pm c))).length := by
          simpa using h
        simpa using ih (ap c (pm c)) k h2

theorem solve_loop_short_means_solved {α : Type} [DecidableEq α]
    (pm : α → String) (ap : α → String → α) (solvedC : α) :
    ∀ (fuel : Nat) (c : α),
      (solve_cube_NN_loop pm ap solvedC fuel c).length < fuel →
      List.foldl ap c (solve_cube_NN_loop pm ap solvedC fuel c) = solvedC := by
  intro fuel
  induction fuel with
  | zero => intro c h; exact absurd h (Nat.not_lt_zero _)
  | succ n ih =>
    intro c h
    rw [solve_loop_succ] at h ⊢
    by_cases hs : ap c (pm c) = solvedC
    · rw [if_pos hs]
      simpa using hs
    · rw [if_neg hs] at h ⊢
      have h2 : (solve_cube_NN_loop pm ap solvedC n (ap c (pm c))).length < n := by
        simpa using h
      simpa using ih (ap c (pm c)) h2

/-- C3: the solve loop of `_solve_cube_NN` applies the predictor's moves one
at a time to the (opaque) cube representation, never applies more than 10
moves, and terminates early exactly when the cube reaches the solved state:
whenever more moves follow, the state reached so far was not yet solved, and
whenever fewer than 10 moves were applied, the final state is solved. -/
theorem solve_cube_NN_bounded_and_early_stop {α : Type} [DecidableEq α]
    (pm : α → String) (ap : α → String → α) (solvedC c0 : α) :
    (solve_cube_NN_moves pm ap solvedC c0).length ≤ 10 ∧
    (∀ k : Nat, k + 1 < (solve_cube_NN_moves pm ap solvedC c0).length →
      List.foldl ap c0 ((solve_cube_NN_moves pm ap solvedC c0).take (k + 1))
        ≠ solvedC) ∧
    ((solve_cube_NN_moves pm ap solvedC c0).length < 10 →
      List.foldl ap c0 (solve_cube_NN_moves pm ap solvedC c0) = solvedC) :=
  ⟨solve_loop_length_le pm ap solvedC 10 c0,
   fun k h => solve_loop_early_stop pm ap solvedC 10 c0 k h,
   fun h => solve_loop_short_means_solved pm ap solvedC 10 c0 h⟩

/-- Witness for C3: a predictor that always answers a fixed token over a
counter state that reaches its solved value 3 after three applications. -/
theorem solve_cube_NN_bounded_and_early_stop_witness :
    (solve_cube_NN_moves (fun _ => "R") (fun n _ => n + 1) 3 0).length ≤ 10 ∧
    List.foldl (fun n _ => n + 1) 0
      ((solve_cube_NN_moves (fun _ => "R") (fun n _ => n + 1) 3 0).take 1)
      ≠ 3 :=
  ⟨(solve_cube_NN_bounded_and_early_stop (fun _ => "R") (fun n _ => n + 1) 3 0).1,
   (solve_cube_NN_bounded_and_early_stop (fun _ => "R") (fun n _ => n + 1) 3 0).2.1
     0 (by decide)⟩

/-- C9: invoked on a cube representation that is already solved, the solve
loop still selects and applies one predicted move before the solved-state
check runs: the returned move list is never empty and starts with the
predictor's choice for the solved state. -/
theorem solve_on_solved_still_applies_a_move {α : Type} [DecidableEq α]
    (pm : α → String) (ap : α → String → α) (solvedC : α) :
    1 ≤ (solve_cube_NN_moves pm ap solvedC solvedC).length ∧
    (solve_cube_NN_moves pm ap solvedC solvedC).head? = some (pm solvedC) := by
  unfold solve_cube_NN_moves
  rw [show (10 : Nat) = 9 + 1 from rfl, solve_loop_succ]
  split <;> simp

/-- C4 evidence: the rendering of a counter-clockwise key press in
`_key_press`.  Because of Python's conditional-expression precedence, the
source line computes a bare apostrophe instead of the face letter followed
by an apostrophe, diverging from the spec's canonical rendering. -/
theorem sanitizedMove_drops_face_letter :
    sanitizedMove ("R") (-1) = String.mk [aposChar] ∧
    sanitizedMove ("R") (-1) ≠ inv ("R") ∧
    renderTokenSpec ("R") (-1) = inv ("R") := by
  refine ⟨rfl, by decide, by decide⟩

/-! ## The predictor boundary -/

theorem argmax_foldl_ge {α : Type} (score : α → Int) :
    ∀ (l : List α) (b : α),
      score b ≤ score (l.foldl (fun x i => if score x < score i then i else x) b) ∧
      ∀ i ∈ l,
        score i ≤ score (l.foldl (fun x i => if score x < score i then i else x) b) := by
  intro l
  induction l with
  | nil =>
    intro b
    exact ⟨le_refl _, fun i hi => absurd hi (List.not_mem_nil i)⟩
  | cons a as ih =>
    intro b
    obtain ⟨h1, h2⟩ := ih (if score b < score a then a else b)
    rw [List.foldl_cons]
    constructor
    · refine le_trans ?_ h1
      by_cases hba : score b < score a
      · rw [if_pos hba]; exact le_of_lt hba
      · rw [if_neg hba]
    · intro i hi
      rcases List.mem_cons.mp hi with rfl | hi2
      · refine le_trans ?_ h1
        by_cases hba : score b < score i
        · rw [if_pos hba]
        · rw [if_neg hba]; exact le_of_not_lt hba
      · exact h2 i hi2

theorem argmaxIdx_ge (scores : Fin 18 → Int) (j : Fin 18) :
    scores j ≤ scores (argmaxIdx scores) :=
  (argmax_foldl_ge scores (List.finRange 18) ⟨0, by decide⟩).2 j
    (List.mem_finRange j)

/-- C6: the move-predictor boundary.  The tensor handed to the model is the
6-by-3-by-3 grid of palette indices built in the fixed face order
L,U,R,D,F,B: whenever the (opaque) pycuber serialization yields a palette
string, the encoded entry is its index in the fixed 6-entry palette and
decodes back to it.  The selected output is the token of the fixed 18-token
vocabulary whose predictor score is maximal (the first such index, as
`np.argmax` ties break). -/
theorem convertPycubeToMove_contract
    (predict : (Fin 6 → Fin 3 → Fin 3 → Nat) → Fin 18 → Int)
    (get_face : Char → Fin 3 → Fin 3 → String) :
    (∀ (i : Fin 6) (j k : Fin 3), get_face (faceAt i) j k ∈ colors →
        cube2np get_face i j k < 6 ∧
        colors.getD (cube2np get_face i j k) (String.mk []) =
          get_face (faceAt i) j k) ∧
    (∃ sel : Fin 18,
        convertPycubeToMove predict get_face =
          possible_moves.get (Fin.cast (by decide) sel) ∧
        ∀ m : Fin 18,
          predict (cube2np get_face) m ≤ predict (cube2np get_face) sel) := by
  constructor
  · intro i j k hmem
    have hlt : colors.indexOf (get_face (faceAt i) j k) < colors.length :=
      List.indexOf_lt_length.mpr hmem
    refine ⟨?_, ?_⟩
    · simpa [cube2np, colors] using hlt
    · calc colors.getD (cube2np get_face i j k) (String.mk [])
          = colors.get ⟨colors.indexOf (get_face (faceAt i) j k), hlt⟩ :=
            List.getD_eq_get colors (String.mk []) hlt
        _ = get_face (faceAt i) j k := List.indexOf_get hlt
  · exact ⟨argmaxIdx (predict (cube2np get_face)), rfl,
      fun m => argmaxIdx_ge (predict (cube2np get_face)) m⟩

/-- Witness for C6: a uniform red cube face encodes to a palette index below
6. -/
theorem convertPycubeToMove_contract_witness :
    cube2np (fun _ _ _ => "[r]") 0 0 0 < 6 :=
  ((convertPycubeToMove_contract (fun _ c => (c.val : Int))
      (fun _ _ _ => "[r]")).1 0 0 0 (by decide)).1

/-! ## Rejection of invalid requests -/

theorem face_char_cases (ch : Char) (hf : isFaceChar ch) :
    ch = 'L' ∨ ch = 'R' ∨ ch = 'U' ∨ ch = 'D' ∨ ch = 'F' ∨ ch = 'B' := by
  by_contra hc
  push_neg at hc
  obtain ⟨h1, h2, h3, h4, h5, h6⟩ := hc
  unfold isFaceChar Face.ofChar? at hf
  rw [if_neg h1, if_neg h2, if_neg h3, if_neg h4, if_neg h5, if_neg h6] at hf
  simp at hf

/-- C8: a move request with an invalid face identifier is rejected with the
InvalidFace error, a move request with a layer index outside [0, N) is
rejected with the OutOfRange error, and parsing a token outside the
18-token vocabulary is rejected with the InvalidNotation error.  In each
case only the error is returned — no successor cube state is produced, so
the cube state is left unchanged. -/
theorem invalid_requests_rejected :
    (∀ (c : Cube) (ch : Char) (t : Int) (l : Nat), Face.ofChar? ch = none →
        c.rotate_face_checked ch t l = Except.error CubeError.InvalidFace) ∧
    (∀ (c : Cube) (ch : Char) (f : Face) (t : Int) (l : Nat),
        Face.ofChar? ch = some f → c.N ≤ l →
        c.rotate_face_checked ch t l = Except.error CubeError.OutOfRange) ∧
    (∀ j : String, j ∉ possible_moves →
        parse_token j = Except.error CubeError.InvalidNotationErr) := by
  refine ⟨?_, ?_, ?_⟩
  · intro c ch t l hnone
    simp [Cube.rotate_face_checked, hnone]
  · intro c ch f t l hsome hl
    simp only [Cube.rotate_face_checked, hsome]
    rw [if_neg (Nat.not_lt.mpr hl)]
  · intro j hj
    have hdata : j = String.mk j.data := rfl
    cases hd : j.data with
    | nil => simp [parse_token, hd]
    | cons ch rest =>
      cases rest with
      | nil =>
        by_cases hf : isFaceChar ch
        · exfalso
          apply hj
          have hj2 : j = String.mk [ch] := hdata.trans (congrArg String.mk hd)
          rw [hj2]
          rcases face_char_cases ch hf with rfl | rfl | rfl | rfl | rfl | rfl <;>
            decide
        · simp [parse_token, hd, hf]
      | cons q rest2 =>
        cases rest2 with
        | nil =>
          by_cases hf : isFaceChar ch
          · by_cases hq : q = aposChar
            · exfalso
              apply hj
              have hj2 : j = String.mk [ch, q] :=
                hdata.trans (congrArg String.mk hd)
              rw [hj2, hq]
              rcases face_char_cases ch hf with rfl | rfl | rfl | rfl | rfl | rfl <;>
                decide
            · by_cases h2 : q = '2'
              · exfalso
                apply hj
                have hj2 : j = String.mk [ch, q] :=
                  hdata.trans (congrArg String.mk hd)
                rw [hj2, h2]
                rcases face_char_cases ch hf with rfl | rfl | rfl | rfl | rfl | rfl <;>
                  decide
              · simp [parse_token, hd, hq, h2]
          · simp [parse_token, hd, hf]
        | cons _ _ => simp [parse_token, hd]

/-- Witness for C8: the letter X names no face; layer 5 is out of range on a
3-cube; the single letter Z is not a recognized token. -/
theorem invalid_requests_rejected_witness :
    (solvedCube 3).rotate_face_checked 'X' 1 0 =
      Except.error CubeError.InvalidFace ∧
    (solvedCube 3).rotate_face_checked 'R' 1 5 =
      Except.error CubeError.OutOfRange ∧
    parse_token (String.mk ['Z']) = Except.error CubeError.InvalidNotationErr :=
  ⟨invalid_requests_rejected.1 (solvedCube 3) 'X' 1 0 (by decide),
   invalid_requests_rejected.2.1 (solvedCube 3) 'R' Face.R 1 5 (by decide)
     (by decide),
   invalid_requests_rejected.2.2 (String.mk ['Z']) (by decide)⟩

/-! ## Shuffle -/

theorem shuffle_fold_proj (ts : List String) :
    ∀ ic : InteractiveCube,
      ((ts.foldl shuffleStep ic).cube = ts.foldl applyTokenCube ic.cube) ∧
      ((ts.foldl shuffleStep ic).moveList = ic.moveList) := by
  induction ts with
  | nil => intro ic; exact ⟨rfl, rfl⟩
  | cons t rest ih =>
    intro ic
    exact ih (shuffleStep ic t)

/-- C10: every shuffle first resets the cube to the solved state (replaying
and clearing the existing history), then applies a scramble of exactly
`max_moves` = 6 tokens, each drawn from the fixed 18-token vocabulary, so
the post-shuffle cube is exactly the scramble applied to the solved cube
(and the scramble is recorded as the `_moveList` label). -/
theorem shuffle_cube_behavior (N : Nat) (ms : List (Face × Int × Nat))
    (rand : Nat → Fin 18) :
    (generate_game rand max_moves).length = 6 ∧
    (∀ j ∈ generate_game rand max_moves, j ∈ possible_moves) ∧
    ((applyIC ms (solvedICube N)).shuffle_cube rand).cube =
      (generate_game rand max_moves).foldl applyTokenCube (solvedCube N) ∧
    ((applyIC ms (solvedICube N)).shuffle_cube rand).moveList =
      generate_game rand max_moves := by
  have hc := (reset_applyIC_cube N ms).1
  have key := shuffle_fold_proj (generate_game rand max_moves)
    { (applyIC ms (solvedICube N)).reset_cube with
      moveList := generate_game rand max_moves }
  refine ⟨?_, ?_, ?_, ?_⟩
  · simp [generate_game, max_moves]
  · intro j hj
    rcases List.mem_map.mp hj with ⟨i, _, rfl⟩
    exact List.get_mem _ _ _
  · exact key.1.trans (by rw [hc])
  · exact key.2

/-- Witness for C10: the scramble drawn by the constant random source has
exactly 6 tokens. -/
theorem shuffle_cube_behavior_witness :
    (generate_game (fun _ => (0 : Fin 18)) max_moves).length = 6 :=
  (shuffle_cube_behavior 3 [] (fun _ => (0 : Fin 18))).1

end MagicCube
